import Mathlib

/-!
Verification development for the swimming-start analysis pipeline.

The definitions below are shallow embeddings of the TypeScript source:
the phase-boundary detector, heuristic phase scorers and aggregator of
the analyze route, the start classifier of the pose-detection module,
the angle scoring / averaging of the pro-comparison module, and the
local heuristic scorers.  Machine reals are modelled by `ℚ` (the code
performs only field arithmetic and comparisons on them), except for the
`atan2`-based joint-angle computation, which is modelled over `ℝ`.
Definitions whose names start with `spec` follow the specification's
wording instead, for comparison with the embedded code.

Modelling notes.  Result records are projected onto their numeric fields:
feedback strings, key-point lists and timing fields are not modelled, as no
verified property concerns them.  The per-frame `movement` field is total
(the source's `f.movement || 0` maps both a missing field and 0 to 0).
Indices are natural numbers; `detectMovementPhases` agrees with the
JavaScript for buffers of at least one frame (on the empty buffer the
JavaScript produces the index -1), and every theorem about it assumes at
least one frame.
-/

namespace SwimStart

/-- One named joint observation: normalized x/y position. -/
structure Keypoint where
  x : ℚ
  y : ℚ
deriving DecidableEq

/-- Mapping from joint name to optional keypoint (absent joints are `none`). -/
abbrev KpMap := String → Option Keypoint

/-- One simplified frame as consumed by the analyze route: an optional raw
keypoint map plus the per-frame summary fields `hasFullBody`, `posture`
and `movement`. -/
structure Frame where
  keypoints : Option KpMap
  hasFullBody : Bool
  posture : String
  movement : ℚ

/-- Placeholder frame used as the (never reached) default for in-range list reads. -/
def defaultFrame : Frame := ⟨none, false, "", 0⟩

/-- Joint lookup guarded by presence of the keypoint map, the embedding of
`frame.keypoints && frame.keypoints[joint]`. -/
def jsGetKp (f : Frame) (j : String) : Option Keypoint :=
  match f.keypoints with
  | none => none
  | some m => m j

/-- Key joints of `calculateHorizontalMovements`. -/
def routeKeyJoints : List String :=
  ["nose", "left_shoulder", "right_shoulder", "left_hip", "right_hip"]

/-- Per-pair average absolute horizontal displacement over the key joints
present in both frames; 0 when no joint is present in both. -/
def pairMovement (prev curr : Frame) : ℚ :=
  let contributions := routeKeyJoints.filterMap (fun j =>
    match jsGetKp prev j, jsGetKp curr j with
    | some a, some b => some |b.x - a.x|
    | _, _ => none)
  if contributions.length = 0 then 0 else contributions.sum / contributions.length

/-- The movement time series: a leading 0 (first frame has no movement)
followed by one sample per consecutive frame pair, the embedding of
`calculateHorizontalMovements`. -/
def calculateHorizontalMovements (poseData : List Frame) : List ℚ :=
  0 :: List.zipWith pairMovement poseData poseData.tail

/-- Smoothed value at index `i`: the mean over the clipped symmetric window
of half-width 3 around `i`. -/
def smoothAt (m : List ℚ) (i : ℕ) : ℚ :=
  let lo := i - 3
  let hi := min (m.length - 1) (i + 3)
  let window := List.range' lo (hi + 1 - lo)
  (window.map (fun j => m.getD j 0)).sum / window.length

/-- The smoothed movement series of `findLaunchStart`. -/
def smoothed (m : List ℚ) : List ℚ :=
  (List.range m.length).map (smoothAt m)

/-- Mean of the up to 3 samples preceding index `i` (`slice(max(0,i-3), i)`
divided by `min 3 i`). -/
def recentAvg (s : List ℚ) (i : ℕ) : ℚ :=
  ((s.take i).drop (i - 3)).sum / (min 3 i : ℕ)

/-- Spike threshold 0.06. -/
def spikeThreshold : ℚ := 3 / 50

/-- Base (sustained) threshold 0.04. -/
def baseThreshold : ℚ := 1 / 25

/-- Explosive-onset test at index `i`: smoothed value above the spike
threshold and more than 2.5 times the recent average. -/
def spikeCond (s : List ℚ) (i : ℕ) : Bool :=
  decide (s.getD i 0 > spikeThreshold) && decide (s.getD i 0 > recentAvg s i * (5 / 2))

/-- Sustained-movement test at index `i`: each of the 4 consecutive smoothed
samples above the base threshold, and their (threshold-filtered) mean above
1.8 times the base threshold. -/
def sustainedCond (s : List ℚ) (i : ℕ) : Bool :=
  let vals := (List.range 4).map (fun j => s.getD (i + j) 0)
  let hits := vals.filter (fun v => decide (v > baseThreshold))
  decide (hits.length ≥ 4) && decide (hits.sum / 4 > baseThreshold * (9 / 5))

/-- First index `i` in `[lo, lo+n)` with `p i = true`, the embedding of an
early-returning scan loop. -/
def firstSat (p : ℕ → Bool) (lo n : ℕ) : Option ℕ :=
  (List.range' lo n).find? p

/-- Embedding of `Math.max(...l)` for the non-empty lists it is applied to
(returns 0 on `[]`, a case never reached by the code). -/
def jsMax (l : List ℚ) : ℚ :=
  match l with
  | [] => 0
  | h :: t => t.foldl max h

/-- The launch-start detector: spike scan, then sustained scan, then global
maximum above the base threshold, then the fixed-fraction fallback; every
returned index is clamped to at least 1. -/
def findLaunchStart (movements : List ℚ) : ℕ :=
  let s := smoothed movements
  match firstSat (spikeCond s) 1 (s.length - 1) with
  | some i => max 1 i
  | none =>
    match firstSat (sustainedCond s) 1 (s.length - 5) with
    | some i => max 1 i
    | none =>
      let mx := jsMax s
      if mx > baseThreshold then max 1 (s.indexOf mx)
      else max 1 (movements.length * 33 / 100)

/-- Water-entry test for one wrist between two consecutive frames:
downward displacement above 0.15 or position in the bottom 20 percent
when tracked in both frames, or the wrist disappearing. -/
def checkHandsWaterEntryOne (prev curr : Frame) (hand : String) : Bool :=
  match jsGetKp prev hand, jsGetKp curr hand with
  | some a, some b => decide (b.y - a.y > 3 / 20) || decide (b.y > 4 / 5)
  | some _, none => true
  | _, _ => false

/-- Hands water-entry test over both wrists. -/
def checkHandsWaterEntry (prev curr : Frame) : Bool :=
  ["left_wrist", "right_wrist"].any (checkHandsWaterEntryOne prev curr)

/-- Head water-entry test: nose moving down by more than 0.1 while below
the 0.6 line. -/
def checkHeadWaterEntry (prev curr : Frame) : Bool :=
  match jsGetKp prev "nose", jsGetKp curr "nose" with
  | some a, some b => decide (b.y - a.y > 1 / 10) && decide (b.y > 3 / 5)
  | _, _ => false

/-- Visibility-drop test between consecutive frames. -/
def checkVisibilityChange (prev curr : Frame) : Bool :=
  prev.hasFullBody && !curr.hasFullBody

/-- Combined water-entry signal at frame `i` (against frame `i - 1`). -/
def waterSignal (poseData : List Frame) (i : ℕ) : Bool :=
  let prev := poseData.getD (i - 1) defaultFrame
  let curr := poseData.getD i defaultFrame
  checkHandsWaterEntry prev curr ||
    (checkHeadWaterEntry prev curr && checkVisibilityChange prev curr)

/-- First frame index at which a water-entry signal fires (`none` when no
frame fires), the embedding of `detectWaterEntry` with `-1` as `none`. -/
def detectWaterEntry (poseData : List Frame) : Option ℕ :=
  firstSat (waterSignal poseData) 1 (poseData.length - 1)

/-- Movement-decline fallback for the entry boundary, the embedding of
`findEntryStart`. -/
def findEntryStart (movements : List ℚ) (launchStart : ℕ) : ℕ :=
  let post := movements.drop launchStart
  if post.length < 3 then min (movements.length - 1) (launchStart + 1)
  else
    let mx := jsMax post
    let maxIdx := post.indexOf mx
    match firstSat (fun i => decide (post.getD i 0 < mx * (2 / 5)))
        (maxIdx + 1) (post.length - 2 - (maxIdx + 1)) with
    | some i => launchStart + i
    | none => min (movements.length - 1) (launchStart + post.length * 7 / 10)

/-- The phase-boundary detector: launch start from the movement series,
entry start from the water-entry scan with the movement-decline fallback,
clamped so that `launchStart ≥ 1` and `entryStart ≤ N - 1`. -/
def detectMovementPhases (poseData : List Frame) : ℕ × ℕ :=
  let movements := calculateHorizontalMovements poseData
  let ls := findLaunchStart movements
  let es :=
    match detectWaterEntry poseData with
    | some w => w
    | none => findEntryStart movements ls
  (max 1 ls, min (poseData.length - 1) es)

/-- Heuristic setup-phase score (the score component of `analyzeSetupPhase`). -/
def analyzeSetupPhase (frames : List Frame) : ℚ :=
  if frames.isEmpty then 6
  else
    let score0 : ℚ := 6
    let score1 := if frames.any (fun f => f.posture == "upright") then score0 + 3 / 2 else score0
    let score2 := if frames.length > 3 then score1 + 1 else score1
    let score3 := if frames.any (fun f => f.hasFullBody) then score2 + 1 / 2 else score2
    min score3 10

/-- Heuristic launch-phase score (the score component of `analyzeLaunchPhase`). -/
def analyzeLaunchPhase (frames : List Frame) : ℚ :=
  if frames.isEmpty then 6
  else
    let movements := frames.map (fun f => f.movement)
    let maxMovement := jsMax movements
    let avgMovement := movements.sum / movements.length
    let score0 : ℚ := 6
    let score1 :=
      if maxMovement > 1 / 50 then score0 + 2
      else if maxMovement > 3 / 200 then score0 + 3 / 2
      else if maxMovement > 1 / 100 then score0 + 1
      else score0
    let score2 := if frames.any (fun f => f.posture == "transitioning") then score1 + 1 else score1
    let score3 := if avgMovement > 1 / 200 then score2 + 1 / 2 else score2
    min score3 10

/-- Heuristic entry-phase score (the score component of `analyzeEntryPhase`). -/
def analyzeEntryPhase (frames : List Frame) : ℚ :=
  if frames.isEmpty then 6
  else
    let movements := frames.map (fun f => f.movement)
    let avgMovement := movements.sum / movements.length
    let score0 : ℚ := 6
    let score1 :=
      if frames.any (fun f => f.posture == "streamlined") then score0 + 2
      else if frames.any (fun f => f.posture == "transitioning") then score0 + 1
      else score0
    let score2 := if frames.any (fun f => f.hasFullBody) then score1 + 1 else score1
    let score3 :=
      if decide (avgMovement > 3 / 1000) && decide (avgMovement < 3 / 200) then score2 + 1 / 2
      else score2
    min score3 10

/-- Rounding to one decimal place, the embedding of `Math.round(x * 10) / 10`. -/
def round1 (x : ℚ) : ℚ := (round (x * 10) : ℤ) / 10

/-- The numeric fields of a phase analysis result. -/
structure PhaseScores where
  setup : ℚ
  launch : ℚ
  entry : ℚ
  overall : ℚ
deriving DecidableEq

/-- Default result for buffers with fewer than 3 frames. -/
def getDefaultPhaseAnalysis : PhaseScores := ⟨6, 6, 6, 6⟩

/-- The route's phase analyzer: default below 3 frames, otherwise boundary
detection, per-phase heuristic scoring and the 25/50/25 weighted overall
score rounded to one decimal. -/
def analyzeSwimmingPhases (poseData : List Frame) : PhaseScores :=
  if poseData.length < 3 then getDefaultPhaseAnalysis
  else
    let b := detectMovementPhases poseData
    let setupFrames := poseData.take b.1
    let launchFrames := (poseData.take b.2).drop b.1
    let entryFrames := poseData.drop b.2
    let s := analyzeSetupPhase setupFrames
    let l := analyzeLaunchPhase launchFrames
    let e := analyzeEntryPhase entryFrames
    ⟨s, l, e, round1 (s * (1 / 4) + l * (1 / 2) + e * (1 / 4))⟩

/-! Start classifier (pose-detection module). -/

/-- One pose: a mapping from joint name to optional keypoint. -/
abbrev Pose := String → Option Keypoint

/-- Trunk joints of the start classifier. -/
def pdKeyJoints : List String := ["leftHip", "rightHip", "leftShoulder", "rightShoulder"]

/-- Average absolute horizontal velocity over the trunk joints present in
both poses; `none` when no joint is present in both (such pairs are not
pushed onto the velocity list). -/
def pairVelocity (prev curr : Pose) : Option ℚ :=
  let contributions := pdKeyJoints.filterMap (fun j =>
    match prev j, curr j with
    | some a, some b => some |b.x - a.x|
    | _, _ => none)
  if contributions.length = 0 then none else some (contributions.sum / contributions.length)

/-- The horizontal-velocity series of `isStartMotion`: one sample per
consecutive pose pair that shares at least one trunk joint. -/
def horizontalVelocities (seq : List Pose) : List ℚ :=
  (seq.zip seq.tail).filterMap (fun pr => pairVelocity pr.1 pr.2)

/-- Result of the start classifier (`isStartMotion` with confidence):
the boolean, the confidence, and the diagnostic error string if any. -/
structure StartResult where
  isStart : Bool
  confidence : ℚ
  errorMsg : Option String
deriving DecidableEq

/-- The start classifier: below 5 frames or below 2 valid velocity samples
it returns a negative result with confidence 0 and a diagnostic string;
otherwise it tests the maximum velocity against the jump threshold 0.003
and the mean velocity against 0.001, with banded confidence. -/
def isStartMotion (seq : List Pose) : StartResult :=
  if seq.length < 5 then ⟨false, 0, some "Sequence too short"⟩
  else
    let hv := horizontalVelocities seq
    if hv.length < 2 then ⟨false, 0, some "Not enough velocity data"⟩
    else
      let maxVelocity := jsMax hv
      let avgVelocity := hv.sum / hv.length
      let velocityJumpPassed := decide (maxVelocity > 3 / 1000)
      let hasSignificantMovement := decide (avgVelocity > 1 / 1000)
      let startF := velocityJumpPassed && hasSignificantMovement
      let confidence : ℚ :=
        if startF then
          min 1 (4 / 5 +
            (if maxVelocity > 3 / 200 then 1 / 5
             else if maxVelocity > 1 / 100 then 3 / 20
             else if maxVelocity > 1 / 200 then 1 / 10
             else 0))
        else 1 / 2
      ⟨startF, confidence, none⟩

/-! Angle comparison and aggregation (pro-comparison module). -/

/-- The angle scoring function: inside the acceptable range, linear decay
from 100 by deviation relative to the maximal in-range deviation; outside,
partial credit decaying with distance from the range. -/
def scoreAngle (actual optimal rmin rmax : ℚ) : ℚ :=
  if rmin ≤ actual ∧ actual ≤ rmax then
    max 0 (100 - |actual - optimal| / max (optimal - rmin) (rmax - optimal) * 100)
  else
    max 0 (50 - min |actual - rmin| |actual - rmax| * 2)

/-- The local heuristic setup scorer of the pose-analysis fallback path. -/
def analyzeLocalSetup (frames : List Frame) : ℚ :=
  if frames.isEmpty then 6
  else
    let score0 : ℚ := 6
    let score1 := if frames.any (fun f => f.hasFullBody) then score0 + 1 else score0
    let score2 := if frames.any (fun f => f.posture == "upright") then score1 + 1 else score1
    let score3 := if frames.length > 2 then score2 + 1 / 2 else score2
    min score3 10

/-- The JavaScript `x || d` fallback on an optional numeric field: the
value when present and non-zero, otherwise the fallback. -/
def jsOrQ (o : Option ℚ) (d : ℚ) : ℚ :=
  match o with
  | some v => if v = 0 then d else v
  | none => d

/-- Numeric fields of the top-level aggregation: the overall score and the
three selected per-phase scores. -/
structure AggScores where
  overall : ℚ
  setup : ℚ
  launch : ℚ
  entry : ℚ
deriving DecidableEq

/-- The score aggregation of `analyzeSwimmingStart`: each phase score is the
optional upstream heuristic phase score with the local angle-comparison
score as `||`-fallback, and the overall score is the 25/50/25 weighted
combination rounded to one decimal. -/
def aggregateStartScores (pa : Option (ℚ × ℚ × ℚ))
    (angleSetup angleLaunch angleEntry : ℚ) : AggScores :=
  let s := jsOrQ (pa.map (fun t => t.1)) angleSetup
  let l := jsOrQ (pa.map (fun t => t.2.1)) angleLaunch
  let e := jsOrQ (pa.map (fun t => t.2.2)) angleEntry
  ⟨round1 (s * (1 / 4) + l * (1 / 2) + e * (1 / 4)), s, l, e⟩

/-! Joint angles (real-valued, `Math.atan2` modelled by `Complex.arg`). -/

/-- A keypoint with real coordinates, for the angle computations. -/
structure KpR where
  x : ℝ
  y : ℝ

/-- A pose as a named keypoint list, as consumed by `calculateBodyAngles`. -/
abbrev PoseR := List (String × KpR)

/-- The two-argument arctangent `Math.atan2 y x`, as the argument of the
complex number `x + y i`. -/
noncomputable def atan2 (y x : ℝ) : ℝ := Complex.arg ⟨x, y⟩

/-- The joint-angle formula: absolute difference of the `atan2` directions
from the middle point to the outer points, in degrees, folded into
`[0, 180]`. -/
noncomputable def calculateAngle (p1 p2 p3 : KpR) : ℝ :=
  let radians := atan2 (p3.y - p2.y) (p3.x - p2.x) - atan2 (p1.y - p2.y) (p1.x - p2.x)
  let a := |radians * 180 / Real.pi|
  if a > 180 then 360 - a else a

/-- First keypoint with the given name. -/
def getKeypointByName (pose : PoseR) (nm : String) : Option KpR :=
  (pose.find? (fun kv => kv.1 == nm)).map (fun kv => kv.2)

/-- One angle of `calculateBodyAngles`: computed from the left-side joint
triplet when fully present, else from the right-side triplet, else 0. -/
noncomputable def angleVia (pose : PoseR) (l1 l2 l3 r1 r2 r3 : String) : ℝ :=
  match getKeypointByName pose l1, getKeypointByName pose l2, getKeypointByName pose l3 with
  | some a, some b, some c => calculateAngle a b c
  | _, _, _ =>
    match getKeypointByName pose r1, getKeypointByName pose r2, getKeypointByName pose r3 with
    | some a, some b, some c => calculateAngle a b c
    | _, _, _ => 0

/-- The four body angles of one frame. -/
structure BodyAngles where
  hip : ℝ
  knee : ℝ
  shoulder : ℝ
  elbow : ℝ

/-- The embedding of `calculateBodyAngles`: hip, knee, shoulder and elbow
angles with left-side preference and right-side fallback, 0 when neither
triplet is present. -/
noncomputable def calculateBodyAngles (pose : PoseR) : BodyAngles :=
  ⟨angleVia pose "leftShoulder" "leftHip" "leftKnee" "rightShoulder" "rightHip" "rightKnee",
   angleVia pose "leftHip" "leftKnee" "leftAnkle" "rightHip" "rightKnee" "rightAnkle",
   angleVia pose "leftElbow" "leftShoulder" "leftHip" "rightElbow" "rightShoulder" "rightHip",
   angleVia pose "leftShoulder" "leftElbow" "leftWrist" "rightShoulder" "rightElbow" "rightWrist"⟩

/-- Per-phase average angles of `analyzePhase`: the four angle sums over all
frames of the phase, divided by the total frame count when positive. -/
noncomputable def phaseAverageAngles (frames : List PoseR) : BodyAngles :=
  let sumHip := (frames.map (fun f => (calculateBodyAngles f).hip)).sum
  let sumKnee := (frames.map (fun f => (calculateBodyAngles f).knee)).sum
  let sumShoulder := (frames.map (fun f => (calculateBodyAngles f).shoulder)).sum
  let sumElbow := (frames.map (fun f => (calculateBodyAngles f).elbow)).sum
  if frames.length = 0 then ⟨sumHip, sumKnee, sumShoulder, sumElbow⟩
  else ⟨sumHip / frames.length, sumKnee / frames.length,
        sumShoulder / frames.length, sumElbow / frames.length⟩

/-- Presence of a full joint triplet on the left or on the right side,
matching the guards of `angleVia`. -/
def hasTriplet (pose : PoseR) (l1 l2 l3 r1 r2 r3 : String) : Bool :=
  ((getKeypointByName pose l1).isSome && (getKeypointByName pose l2).isSome &&
    (getKeypointByName pose l3).isSome) ||
  ((getKeypointByName pose r1).isSome && (getKeypointByName pose r2).isSome &&
    (getKeypointByName pose r3).isSome)

/-- Presence of a hip-angle triplet (shoulder-hip-knee on either side). -/
def hasHipTriplet (pose : PoseR) : Bool :=
  hasTriplet pose "leftShoulder" "leftHip" "leftKnee" "rightShoulder" "rightHip" "rightKnee"

/-- Presence of a knee-angle triplet (hip-knee-ankle on either side). -/
def hasKneeTriplet (pose : PoseR) : Bool :=
  hasTriplet pose "leftHip" "leftKnee" "leftAnkle" "rightHip" "rightKnee" "rightAnkle"

/-- Presence of a shoulder-angle triplet (elbow-shoulder-hip on either side). -/
def hasShoulderTriplet (pose : PoseR) : Bool :=
  hasTriplet pose "leftElbow" "leftShoulder" "leftHip" "rightElbow" "rightShoulder" "rightHip"

/-- Presence of an elbow-angle triplet (shoulder-elbow-wrist on either side). -/
def hasElbowTriplet (pose : PoseR) : Bool :=
  hasTriplet pose "leftShoulder" "leftElbow" "leftWrist" "rightShoulder" "rightElbow" "rightWrist"

/-- Specification-worded per-phase average hip angle: the average taken only
over the frames whose hip triplet is present (spec 4.5: frames missing a
required joint triplet are excluded from that angle's average). -/
noncomputable def specAverageHip (frames : List PoseR) : ℝ :=
  let present := frames.filter hasHipTriplet
  ((present.map (fun f => (calculateBodyAngles f).hip)).sum) / present.length

/-! Specification-worded variants of the boundary detectors (spec 4.3),
for comparison with the embedded code. -/

/-- Specification-worded launch start: first index whose smoothed movement
exceeds the spike threshold and is at least 2.5 times the mean of the
preceding samples; else the first index starting a run of 4 consecutive
samples above the base threshold with mean at least 1.8 times it; else the
index of the global maximum if above the base threshold; else the index 33
percent through the buffer. -/
def specLaunchStart (movements : List ℚ) : ℕ :=
  let s := smoothed movements
  match firstSat (fun i =>
      decide (s.getD i 0 > spikeThreshold) &&
      decide (s.getD i 0 ≥ recentAvg s i * (5 / 2))) 0 s.length with
  | some i => i
  | none =>
    match firstSat (fun i =>
        ((List.range 4).map (fun j => s.getD (i + j) 0)).all
          (fun v => decide (v > baseThreshold)) &&
        decide (((List.range 4).map (fun j => s.getD (i + j) 0)).sum / 4 ≥
          baseThreshold * (9 / 5))) 0 (s.length - 3) with
    | some i => i
    | none =>
      let mx := jsMax s
      if mx > baseThreshold then s.indexOf mx
      else movements.length * 33 / 100

/-- Specification-worded entry start: the first frame with a water-entry
signal; else the first post-launch frame whose movement is below 40 percent
of the post-launch peak; else 70 percent through the post-launch remainder. -/
def specEntryStart (poseData : List Frame) : ℕ :=
  let movements := calculateHorizontalMovements poseData
  let ls := findLaunchStart movements
  match detectWaterEntry poseData with
  | some w => w
  | none =>
    let post := movements.drop ls
    let mx := jsMax post
    match firstSat (fun i => decide (post.getD i 0 < mx * (2 / 5))) 0 post.length with
    | some i => ls + i
    | none => ls + post.length * 7 / 10

/-! Predicates used by the boundary-characterization theorems. -/

/-- An index at which the embedded spike scan can stop: in scan range and
satisfying the spike condition. -/
def SpikeIn (s : List ℚ) (i : ℕ) : Prop :=
  1 ≤ i ∧ i < s.length ∧ spikeCond s i = true

/-- An index at which the embedded sustained scan can stop. -/
def SustIn (s : List ℚ) (i : ℕ) : Prop :=
  1 ≤ i ∧ i + 4 < s.length ∧ sustainedCond s i = true

/-- A frame index at which the water-entry scan can stop. -/
def WaterIn (poseData : List Frame) (i : ℕ) : Prop :=
  1 ≤ i ∧ i < poseData.length ∧ waterSignal poseData i = true

/-- A post-launch index at which the movement-decline scan can stop. -/
def DropIn (post : List ℚ) (i : ℕ) : Prop :=
  post.indexOf (jsMax post) + 1 ≤ i ∧ i + 2 < post.length ∧
    post.getD i 0 < jsMax post * (2 / 5)

/-- All consecutive-frame displacements of every tracked joint are zero:
any joint present in two consecutive poses has the same position in both. -/
def AllStill (seq : List Pose) : Prop :=
  ∀ pr ∈ seq.zip seq.tail, ∀ j a b, pr.1 j = some a → pr.2 j = some b → a = b

instance (s : List ℚ) (i : ℕ) : Decidable (SpikeIn s i) :=
  inferInstanceAs (Decidable (1 ≤ i ∧ i < s.length ∧ spikeCond s i = true))

instance (s : List ℚ) (i : ℕ) : Decidable (SustIn s i) :=
  inferInstanceAs (Decidable (1 ≤ i ∧ i + 4 < s.length ∧ sustainedCond s i = true))

instance (pd : List Frame) (i : ℕ) : Decidable (WaterIn pd i) :=
  inferInstanceAs (Decidable (1 ≤ i ∧ i < pd.length ∧ waterSignal pd i = true))

instance (post : List ℚ) (i : ℕ) : Decidable (DropIn post i) :=
  inferInstanceAs (Decidable (post.indexOf (jsMax post) + 1 ≤ i ∧ i + 2 < post.length ∧
    post.getD i 0 < jsMax post * (2 / 5)))

/-! Concrete inputs used by counterexamples and witnesses. -/

/-- A frame whose only tracked joint is a wrist deep in the frame (y = 0.9). -/
def c1Frame : Frame :=
  ⟨some (fun j => if j = "left_wrist" then some ⟨1 / 2, 9 / 10⟩ else none), false, "", 0⟩

/-- Ten identical wrist-in-water frames. -/
def c1Frames : List Frame := List.replicate 10 c1Frame

/-- A frame whose only tracked joint is the nose, at the given x and y = 0.5. -/
def noseFrame (xv : ℚ) : Frame :=
  ⟨some (fun j => if j = "nose" then some ⟨xv, 1 / 2⟩ else none), false, "", 0⟩

/-- Eight nose-only frames: small movement, one movement peak at the fourth
frame, then small movement again; no water-entry signal anywhere. -/
def c3Frames : List Frame :=
  [noseFrame (1 / 10), noseFrame (51 / 500), noseFrame (52 / 500), noseFrame (67 / 500),
   noseFrame (68 / 500), noseFrame (69 / 500), noseFrame (70 / 500), noseFrame (71 / 500)]

/-- Four keypoint-free frames, the first with full-body visibility. -/
def c4Frames : List Frame :=
  [⟨none, true, "", 0⟩, ⟨none, false, "", 0⟩, ⟨none, false, "", 0⟩, ⟨none, false, "", 0⟩]

/-- A single streamlined-posture frame. -/
def c6Frame : Frame := ⟨none, false, "streamlined", 0⟩

/-- A movement series with a clean smoothed spike. -/
def c2wm : List ℚ := [0, 0, 0, 0, 0, 0, 0, 7 / 10]

/-- A static pose with one tracked hip joint. -/
def c7Pose : Pose := fun j => if j = "leftHip" then some ⟨3 / 10, 2 / 5⟩ else none

/-- Five identical static poses. -/
def c7Seq : List Pose := List.replicate 5 c7Pose

/-- A static pose with one tracked shoulder joint. -/
def c7wPose : Pose := fun j => if j = "rightShoulder" then some ⟨1 / 5, 1 / 5⟩ else none

/-- Six identical static poses, for the witness of artifact C7. -/
def c7wSeq : List Pose := List.replicate 6 c7wPose

/-- A pose with no tracked joints. -/
def emptyPose : Pose := fun _ => none

/-- Five jointless poses: no valid velocity samples at all. -/
def c9Seq : List Pose := List.replicate 5 emptyPose

/-- Three keypoint-free frames, used by boundary-characterization witnesses. -/
def c3wFrames : List Frame := List.replicate 3 (⟨none, false, "", 0⟩ : Frame)

/-- The C5 pose with a left hip triplet forming a right angle at the hip. -/
noncomputable def c5PoseA : PoseR :=
  [("leftShoulder", ⟨0, 0⟩), ("leftHip", ⟨0, 1⟩), ("leftKnee", ⟨1, 1⟩)]

/-- The C5 pose with no keypoints at all. -/
def c5PoseB : PoseR := []

/-! Helper lemmas. -/

lemma firstSat_eq_none_iff (p : ℕ → Bool) (lo n : ℕ) :
    firstSat p lo n = none ↔ ∀ i, lo ≤ i → i < lo + n → p i = false := by
  unfold firstSat
  rw [List.find?_eq_none]
  constructor
  · intro h i h1 h2
    have := h i (List.mem_range'_1.mpr ⟨h1, h2⟩)
    simpa using this
  · intro h x hx
    have hb := List.mem_range'_1.mp hx
    simp [h x hb.1 hb.2]

lemma firstSat_eq_some_iff (p : ℕ → Bool) :
    ∀ (n lo i : ℕ), firstSat p lo n = some i ↔
      (lo ≤ i ∧ i < lo + n ∧ p i = true ∧ ∀ j, lo ≤ j → j < i → p j = false) := by
  intro n
  induction n with
  | zero =>
    intro lo i
    constructor
    · intro h; simp [firstSat] at h
    · rintro ⟨h1, h2, -⟩; omega
  | succ n ih =>
    intro lo i
    rw [firstSat, List.range'_succ]
    by_cases hp : p lo = true
    · rw [List.find?_cons_of_pos _ hp]
      constructor
      · rintro ⟨rfl⟩
        exact ⟨le_refl _, by omega, hp, fun j hj1 hj2 => by omega⟩
      · rintro ⟨h1, h2, h3, h4⟩
        rcases Nat.eq_or_lt_of_le h1 with rfl | hlt
        · rfl
        · exact absurd hp (by simp [h4 lo (le_refl _) hlt])
    · rw [List.find?_cons_of_neg _ hp]
      have := ih (lo + 1) i
      rw [firstSat] at this
      rw [this]
      constructor
      · rintro ⟨h1, h2, h3, h4⟩
        refine ⟨by omega, by omega, h3, fun j hj1 hj2 => ?_⟩
        rcases Nat.eq_or_lt_of_le hj1 with rfl | hlt
        · simpa using hp
        · exact h4 j (by omega) hj2
      · rintro ⟨h1, h2, h3, h4⟩
        have hne : lo ≠ i := by
          rintro rfl
          exact hp h3
        exact ⟨by omega, by omega, h3, fun j hj1 hj2 => h4 j (by omega) hj2⟩

lemma firstSat_some_of_least (p : ℕ → Bool) (lo n i : ℕ) (h1 : lo ≤ i) (h2 : i < lo + n)
    (h3 : p i = true) (h4 : ∀ j, lo ≤ j → j < i → p j = false) :
    firstSat p lo n = some i :=
  (firstSat_eq_some_iff p n lo i).mpr ⟨h1, h2, h3, h4⟩

lemma firstSat_none_of_all (p : ℕ → Bool) (lo n : ℕ)
    (h : ∀ i, lo ≤ i → i < lo + n → p i = false) : firstSat p lo n = none :=
  (firstSat_eq_none_iff p lo n).mpr h

lemma firstSat_some_bounds (p : ℕ → Bool) (lo n i : ℕ) (h : firstSat p lo n = some i) :
    lo ≤ i ∧ i < lo + n ∧ p i = true :=
  ((firstSat_eq_some_iff p n lo i).mp h).imp id (fun h2 => h2.imp id And.left)

lemma foldl_max_mem (t : List ℚ) (a : ℚ) : t.foldl max a = a ∨ t.foldl max a ∈ t := by
  induction t generalizing a with
  | nil => exact Or.inl rfl
  | cons b t ih =>
    rw [List.foldl_cons]
    rcases ih (max a b) with h | h
    · rcases max_choice a b with h2 | h2
      · rw [h, h2]; exact Or.inl rfl
      · rw [h, h2]; exact Or.inr (List.mem_cons_self _ _)
    · exact Or.inr (List.mem_cons_of_mem _ h)

lemma le_foldl_max_init (t : List ℚ) (a : ℚ) : a ≤ t.foldl max a := by
  induction t generalizing a with
  | nil => exact le_refl _
  | cons b t ih =>
    rw [List.foldl_cons]
    exact le_trans (le_max_left a b) (ih (max a b))

lemma le_foldl_max_of_mem (t : List ℚ) (a x : ℚ) (hx : x ∈ t) : x ≤ t.foldl max a := by
  induction t generalizing a with
  | nil => cases hx
  | cons b t ih =>
    rw [List.foldl_cons]
    rcases List.mem_cons.mp hx with rfl | hx2
    · exact le_trans (le_max_right a x) (le_foldl_max_init t (max a x))
    · exact ih (max a b) hx2

lemma jsMax_mem (l : List ℚ) (h : l ≠ []) : jsMax l ∈ l := by
  match l with
  | a :: t =>
    rw [jsMax]
    rcases foldl_max_mem t a with h2 | h2
    · rw [h2]; exact List.mem_cons_self _ _
    · exact List.mem_cons_of_mem _ h2

lemma le_jsMax (l : List ℚ) (x : ℚ) (hx : x ∈ l) : x ≤ jsMax l := by
  match l with
  | a :: t =>
    rw [jsMax]
    rcases List.mem_cons.mp hx with rfl | h2
    · exact le_foldl_max_init t x
    · exact le_foldl_max_of_mem t a x h2

lemma jsMax_eq_zero (l : List ℚ) (h : l ≠ []) (h0 : ∀ x ∈ l, x = 0) : jsMax l = 0 :=
  h0 _ (jsMax_mem l h)

lemma sum_map_eq_sum_filter (g : PoseR → ℝ) (present : PoseR → Bool)
    (hg : ∀ f, present f = false → g f = 0) (l : List PoseR) :
    (l.map g).sum = ((l.filter present).map g).sum := by
  induction l with
  | nil => rfl
  | cons a l ih =>
    by_cases ha : present a
    · rw [List.map_cons, List.sum_cons, List.filter_cons_of_pos ha, List.map_cons,
        List.sum_cons, ih]
    · rw [List.map_cons, List.sum_cons, List.filter_cons_of_neg (by simpa using ha),
        hg a (by simpa using ha), ih, zero_add]

lemma smoothed_length (m : List ℚ) : (smoothed m).length = m.length := by
  simp [smoothed]

lemma movements_length (pd : List Frame) (h : 1 ≤ pd.length) :
    (calculateHorizontalMovements pd).length = pd.length := by
  simp only [calculateHorizontalMovements, List.length_cons, List.length_zipWith,
    List.length_tail]
  omega

lemma spike_scan_some (m : List ℚ) (i : ℕ) (hi : SpikeIn (smoothed m) i)
    (hmin : ∀ j, j < i → ¬ SpikeIn (smoothed m) j) :
    firstSat (spikeCond (smoothed m)) 1 ((smoothed m).length - 1) = some i := by
  obtain ⟨h1, h2, h3⟩ := hi
  refine firstSat_some_of_least _ _ _ _ h1 (by omega) h3 (fun j hj1 hj2 => ?_)
  by_contra hc
  exact hmin j hj2 ⟨hj1, by omega, by simpa using hc⟩

lemma spike_scan_none (m : List ℚ) (h : ∀ i, ¬ SpikeIn (smoothed m) i) :
    firstSat (spikeCond (smoothed m)) 1 ((smoothed m).length - 1) = none := by
  refine firstSat_none_of_all _ _ _ (fun i hi1 hi2 => ?_)
  by_contra hc
  exact h i ⟨hi1, by omega, by simpa using hc⟩

lemma sust_scan_some (m : List ℚ) (i : ℕ) (hi : SustIn (smoothed m) i)
    (hmin : ∀ j, j < i → ¬ SustIn (smoothed m) j) :
    firstSat (sustainedCond (smoothed m)) 1 ((smoothed m).length - 5) = some i := by
  obtain ⟨h1, h2, h3⟩ := hi
  refine firstSat_some_of_least _ _ _ _ h1 (by omega) h3 (fun j hj1 hj2 => ?_)
  by_contra hc
  exact hmin j hj2 ⟨hj1, by omega, by simpa using hc⟩

lemma sust_scan_none (m : List ℚ) (h : ∀ i, ¬ SustIn (smoothed m) i) :
    firstSat (sustainedCond (smoothed m)) 1 ((smoothed m).length - 5) = none := by
  refine firstSat_none_of_all _ _ _ (fun i hi1 hi2 => ?_)
  by_contra hc
  exact h i ⟨hi1, by omega, by simpa using hc⟩

lemma findLaunchStart_pos (m : List ℚ) : 1 ≤ findLaunchStart m := by
  simp only [findLaunchStart]
  split
  · exact Nat.le_max_left _ _
  · split
    · exact Nat.le_max_left _ _
    · split
      · exact Nat.le_max_left _ _
      · exact Nat.le_max_left _ _

lemma findLaunchStart_le (m : List ℚ) : findLaunchStart m ≤ max 1 (m.length - 1) := by
  have hsl := smoothed_length m
  simp only [findLaunchStart]
  split
  · rename_i i hsome
    obtain ⟨hb1, hb2, -⟩ := firstSat_some_bounds _ _ _ _ hsome
    exact max_le_max (le_refl 1) (by omega)
  · split
    · rename_i i hsome
      obtain ⟨hb1, hb2, -⟩ := firstSat_some_bounds _ _ _ _ hsome
      exact max_le_max (le_refl 1) (by omega)
    · split
      · rename_i hmx
        rcases List.eq_nil_or_concat (smoothed m) with hnil | -
        · rw [hnil] at hmx
          norm_num [jsMax, baseThreshold] at hmx
        · have hne : smoothed m ≠ [] := by
            intro hcon
            rw [hcon] at hmx
            norm_num [jsMax, baseThreshold] at hmx
          have hmem := jsMax_mem _ hne
          have hidx : (smoothed m).indexOf (jsMax (smoothed m)) < (smoothed m).length :=
            List.indexOf_lt_length.mpr hmem
          exact max_le_max (le_refl 1) (by omega)
      · refine max_le_max (le_refl 1) ?_
        rcases Nat.eq_zero_or_pos m.length with h0 | h0
        · simp [h0]
        · have : m.length * 33 / 100 < m.length := by
            apply Nat.div_lt_of_lt_mul
            omega
          omega

/-- C2: for every movement time series, `findLaunchStart` smooths it with a
symmetric window of half-width 3 and then tries four tiers in order.  As
amended: the spike scan runs over indices `1 ≤ i < N` and requires the
smoothed value to exceed the spike threshold and to strictly exceed 2.5
times the mean of the up-to-3 preceding samples; the sustained scan runs
over `1 ≤ i` with `i + 4 < N` and requires 4 consecutive samples above the
base threshold with mean strictly above 1.8 times it; the third tier
returns the first index of the global smoothed maximum clamped to at least
1, provided the maximum exceeds the base threshold; the final fallback is
`max 1 (⌊0.33 N⌋)`.  Each scan returns the least qualifying index. -/
theorem C2_launch_tiers (m : List ℚ) :
    (∀ i, SpikeIn (smoothed m) i → (∀ j, j < i → ¬ SpikeIn (smoothed m) j) →
      findLaunchStart m = i) ∧
    ((∀ i, ¬ SpikeIn (smoothed m) i) → ∀ i, SustIn (smoothed m) i →
      (∀ j, j < i → ¬ SustIn (smoothed m) j) → findLaunchStart m = i) ∧
    ((∀ i, ¬ SpikeIn (smoothed m) i) → (∀ i, ¬ SustIn (smoothed m) i) →
      jsMax (smoothed m) > baseThreshold →
      findLaunchStart m = max 1 ((smoothed m).indexOf (jsMax (smoothed m)))) ∧
    ((∀ i, ¬ SpikeIn (smoothed m) i) → (∀ i, ¬ SustIn (smoothed m) i) →
      ¬(jsMax (smoothed m) > baseThreshold) →
      findLaunchStart m = max 1 (m.length * 33 / 100)) := by
  refine ⟨?_, ?_, ?_, ?_⟩
  · intro i hi hmin
    have hs := spike_scan_some m i hi hmin
    obtain ⟨h1, -, -⟩ := hi
    simp only [findLaunchStart, hs]
    omega
  · intro hno i hi hmin
    have hs := spike_scan_none m hno
    have ht := sust_scan_some m i hi hmin
    obtain ⟨h1, -, -⟩ := hi
    simp only [findLaunchStart, hs, ht]
    omega
  · intro hno1 hno2 hmx
    have hs := spike_scan_none m hno1
    have ht := sust_scan_none m hno2
    simp only [findLaunchStart, hs, ht, if_pos hmx]
  · intro hno1 hno2 hmx
    have hs := spike_scan_none m hno1
    have ht := sust_scan_none m hno2
    simp only [findLaunchStart, hs, ht, if_neg hmx]

/-- C2 witness: on the series `c2wm` the spike tier fires at index 4, the
least spike index, and `findLaunchStart` returns it. -/
theorem C2_launch_tiers_witness :
    SpikeIn (smoothed c2wm) 4 ∧ findLaunchStart c2wm = 4 :=
  ⟨by with_unfolding_all decide,
   (C2_launch_tiers c2wm).1 4 (by with_unfolding_all decide)
     (by
       intro j hj
       interval_cases j <;> with_unfolding_all decide)⟩

/-- C2 counterexample: on the all-zero two-sample series every tier before
the final fallback fails; the claim's final fallback is the index 33
percent through the buffer, which is 0, but the code returns 1 because of
the clamp to at least 1. -/
theorem C2_final_fallback_counterexample :
    findLaunchStart [0, 0] = 1 ∧ specLaunchStart [0, 0] = 0 ∧
      findLaunchStart [0, 0] ≠ specLaunchStart [0, 0] := by
  refine ⟨?_, ?_, ?_⟩ <;> with_unfolding_all decide

/-- C1 counterexample: on ten identical frames whose only tracked joint is a
wrist at y = 0.9, the water-entry signal fires at frame 1 while the launch
fallback places the launch start at frame 3, so the returned boundaries
violate `launchStart ≤ entryStart`, and the launch slice is empty although
N = 10 ≥ 3. -/
theorem C1_boundary_order_counterexample :
    (detectMovementPhases c1Frames).1 = 3 ∧ (detectMovementPhases c1Frames).2 = 1 ∧
      ¬((detectMovementPhases c1Frames).1 ≤ (detectMovementPhases c1Frames).2) ∧
      (c1Frames.take (detectMovementPhases c1Frames).2).drop
        (detectMovementPhases c1Frames).1 = [] := by
  refine ⟨?_, ?_, ?_, List.eq_nil_of_length_eq_zero ?_⟩ <;> with_unfolding_all decide

/-- C1 as amended: for every buffer with N ≥ 1 frames the detector returns
`1 ≤ launchStart ≤ N` and `entryStart ≤ N - 1`, and for N ≥ 3 the setup
slice `[0, launchStart)` and the entry slice `[entryStart, N)` are
non-empty; the ordering `launchStart ≤ entryStart` (and with it the
non-emptiness of the launch slice) is not guaranteed, as the water-entry
signal can fire before the detected launch start. -/
theorem C1_boundary_bounds (pd : List Frame) (h : 1 ≤ pd.length) :
    1 ≤ (detectMovementPhases pd).1 ∧ (detectMovementPhases pd).1 ≤ pd.length ∧
      (detectMovementPhases pd).2 ≤ pd.length - 1 ∧
      (3 ≤ pd.length → pd.take (detectMovementPhases pd).1 ≠ [] ∧
        pd.drop (detectMovementPhases pd).2 ≠ []) := by
  have hml := movements_length pd h
  have hle := findLaunchStart_le (calculateHorizontalMovements pd)
  rw [hml] at hle
  simp only [detectMovementPhases]
  refine ⟨le_max_left _ _, ?_, Nat.min_le_left _ _, fun h3 => ⟨?_, ?_⟩⟩
  · exact max_le h (le_trans hle (max_le h (by omega)))
  · apply List.ne_nil_of_length_pos
    rw [List.length_take]
    have := Nat.le_max_left 1 (findLaunchStart (calculateHorizontalMovements pd))
    omega
  · apply List.ne_nil_of_length_pos
    rw [List.length_drop]
    have := Nat.min_le_left (pd.length - 1)
      (match detectWaterEntry pd with
       | some w => w
       | none => findEntryStart (calculateHorizontalMovements pd)
           (findLaunchStart (calculateHorizontalMovements pd)))
    omega

/-- C1 witness: the amended bounds instantiated at a concrete 3-frame buffer. -/
theorem C1_boundary_bounds_witness :
    1 ≤ (detectMovementPhases c3wFrames).1 ∧
      (detectMovementPhases c3wFrames).1 ≤ c3wFrames.length ∧
      (detectMovementPhases c3wFrames).2 ≤ c3wFrames.length - 1 ∧
      (3 ≤ c3wFrames.length → c3wFrames.take (detectMovementPhases c3wFrames).1 ≠ [] ∧
        c3wFrames.drop (detectMovementPhases c3wFrames).2 ≠ []) :=
  C1_boundary_bounds c3wFrames (by with_unfolding_all decide)

lemma water_scan_some (pd : List Frame) (i : ℕ) (hi : WaterIn pd i)
    (hmin : ∀ j, j < i → ¬ WaterIn pd j) : detectWaterEntry pd = some i := by
  obtain ⟨h1, h2, h3⟩ := hi
  refine firstSat_some_of_least _ _ _ _ h1 (by omega) h3 (fun j hj1 hj2 => ?_)
  by_contra hc
  exact hmin j hj2 ⟨hj1, by omega, by simpa using hc⟩

lemma water_scan_none (pd : List Frame) (h : ∀ i, ¬ WaterIn pd i) :
    detectWaterEntry pd = none := by
  refine firstSat_none_of_all _ _ _ (fun i hi1 hi2 => ?_)
  by_contra hc
  exact h i ⟨hi1, by omega, by simpa using hc⟩

lemma drop_scan_some (post : List ℚ) (i : ℕ) (hi : DropIn post i)
    (hmin : ∀ j, j < i → ¬ DropIn post j) :
    firstSat (fun k => decide (post.getD k 0 < jsMax post * (2 / 5)))
      (post.indexOf (jsMax post) + 1) (post.length - 2 - (post.indexOf (jsMax post) + 1)) =
      some i := by
  obtain ⟨h1, h2, h3⟩ := hi
  refine firstSat_some_of_least _ _ _ _ h1 (by omega) (by simpa using h3)
    (fun j hj1 hj2 => ?_)
  by_contra hc
  exact hmin j hj2 ⟨hj1, by omega, by simpa using hc⟩

lemma drop_scan_none (post : List ℚ) (h : ∀ i, ¬ DropIn post i) :
    firstSat (fun k => decide (post.getD k 0 < jsMax post * (2 / 5)))
      (post.indexOf (jsMax post) + 1) (post.length - 2 - (post.indexOf (jsMax post) + 1)) =
      none := by
  refine firstSat_none_of_all _ _ _ (fun i hi1 hi2 => ?_)
  by_contra hc
  exact h i ⟨hi1, by omega, by simpa using hc⟩

/-- C3 as amended: with `movements` the horizontal-movement series, `ls` the
launch start and `post` the post-launch tail of the series, the returned
entry boundary (always clamped to at most N - 1) is: the first frame index
with a water-entry signal when one fires; otherwise, when `post` has fewer
than 3 samples, `ls + 1`; otherwise the least post-launch index that lies
strictly after the movement peak, at least 2 samples before the end, and
whose movement is below 40 percent of the peak; and if no such index
exists, `ls` plus 70 percent of the post-launch length. -/
theorem C3_entry_tiers (pd : List Frame) (h : 1 ≤ pd.length) :
    (∀ i, WaterIn pd i → (∀ j, j < i → ¬ WaterIn pd j) →
      (detectMovementPhases pd).2 = min (pd.length - 1) i) ∧
    ((∀ i, ¬ WaterIn pd i) →
      ((calculateHorizontalMovements pd).drop
        (findLaunchStart (calculateHorizontalMovements pd))).length < 3 →
      (detectMovementPhases pd).2 =
        min (pd.length - 1) (findLaunchStart (calculateHorizontalMovements pd) + 1)) ∧
    ((∀ i, ¬ WaterIn pd i) →
      3 ≤ ((calculateHorizontalMovements pd).drop
        (findLaunchStart (calculateHorizontalMovements pd))).length →
      ∀ i, DropIn ((calculateHorizontalMovements pd).drop
          (findLaunchStart (calculateHorizontalMovements pd))) i →
        (∀ j, j < i → ¬ DropIn ((calculateHorizontalMovements pd).drop
          (findLaunchStart (calculateHorizontalMovements pd))) j) →
        (detectMovementPhases pd).2 =
          min (pd.length - 1) (findLaunchStart (calculateHorizontalMovements pd) + i)) ∧
    ((∀ i, ¬ WaterIn pd i) →
      3 ≤ ((calculateHorizontalMovements pd).drop
        (findLaunchStart (calculateHorizontalMovements pd))).length →
      (∀ i, ¬ DropIn ((calculateHorizontalMovements pd).drop
        (findLaunchStart (calculateHorizontalMovements pd))) i) →
      (detectMovementPhases pd).2 =
        min (pd.length - 1) (findLaunchStart (calculateHorizontalMovements pd) +
          ((calculateHorizontalMovements pd).drop
            (findLaunchStart (calculateHorizontalMovements pd))).length * 7 / 10)) := by
  have hml := movements_length pd h
  refine ⟨?_, ?_, ?_, ?_⟩
  · intro i hi hmin
    have hw := water_scan_some pd i hi hmin
    simp only [detectMovementPhases, hw]
  · intro hno hlen
    have hw := water_scan_none pd hno
    simp only [detectMovementPhases, hw, findEntryStart, if_pos hlen, hml]
    rw [← min_assoc, min_self]
  · intro hno hlen i hi hmin
    have hw := water_scan_none pd hno
    have hd := drop_scan_some _ i hi hmin
    simp only [detectMovementPhases, hw, findEntryStart, if_neg (by omega :
      ¬(((calculateHorizontalMovements pd).drop
        (findLaunchStart (calculateHorizontalMovements pd))).length < 3)), hd]
  · intro hno hlen hnod
    have hw := water_scan_none pd hno
    have hd := drop_scan_none _ hnod
    simp only [detectMovementPhases, hw, findEntryStart, if_neg (by omega :
      ¬(((calculateHorizontalMovements pd).drop
        (findLaunchStart (calculateHorizontalMovements pd))).length < 3)), hd, hml]
    rw [← min_assoc, min_self]

/-- C3 witness: the amended characterization instantiated on a concrete
3-frame buffer with no water-entry signal and a short post-launch tail. -/
theorem C3_entry_tiers_witness :
    (detectMovementPhases c3wFrames).2 =
      min (c3wFrames.length - 1) (findLaunchStart (calculateHorizontalMovements c3wFrames) + 1) :=
  (C3_entry_tiers c3wFrames (by with_unfolding_all decide)).2.1
    (by
      rintro i ⟨hi1, hi2, hi3⟩
      have : i < 3 := by simpa [c3wFrames] using hi2
      interval_cases i
      · exact absurd hi3 (by with_unfolding_all decide)
      · exact absurd hi3 (by with_unfolding_all decide))
    (by with_unfolding_all decide)

/-- C3 counterexample: on eight nose-only frames with a movement dip before
the movement peak and no water-entry signal, the code's entry boundary is
frame 4 (first sub-40-percent frame strictly after the peak), while the
claim's fallback — the first post-launch frame below 40 percent of the
post-launch peak — is frame 2. -/
theorem C3_entry_fallback_counterexample :
    (detectMovementPhases c3Frames).2 = 4 ∧ specEntryStart c3Frames = 2 ∧
      (detectMovementPhases c3Frames).2 ≠ specEntryStart c3Frames := by
  refine ⟨?_, ?_, ?_⟩ <;> with_unfolding_all decide

/-- C4 counterexample: a concrete 4-frame buffer whose heuristic phase
scores are 6.5 / 6 / 6; the weighted combination is 6.125 but the
aggregator's `overallScore` is the rounded 6.1, so the published overall
score does not equal `0.25 x setup + 0.50 x launch + 0.25 x entry`. -/
theorem C4_overall_rounding_counterexample :
    analyzeSwimmingPhases c4Frames = ⟨13 / 2, 6, 6, 61 / 10⟩ ∧
      (analyzeSwimmingPhases c4Frames).overall ≠
        (analyzeSwimmingPhases c4Frames).setup * (1 / 4) +
          (analyzeSwimmingPhases c4Frames).launch * (1 / 2) +
          (analyzeSwimmingPhases c4Frames).entry * (1 / 4) := by
  refine ⟨?_, ?_⟩ <;> with_unfolding_all decide

/-- C4 as amended: the aggregators take all three per-phase scores from one
source and publish the 25/50/25 weighted combination rounded to the
nearest tenth.  With no upstream phase analysis all three selected scores
are the angle-based ones; with an upstream heuristic phase analysis whose
scores are non-zero (heuristic scores are always at least 6) all three are
the heuristic ones; and the route's own aggregator combines the three
heuristic slice scores the same way. -/
theorem C4_aggregator :
    (∀ a l e : ℚ, aggregateStartScores none a l e =
      ⟨round1 (a * (1 / 4) + l * (1 / 2) + e * (1 / 4)), a, l, e⟩) ∧
    (∀ s l e a b c : ℚ, s ≠ 0 → l ≠ 0 → e ≠ 0 →
      aggregateStartScores (some (s, l, e)) a b c =
        ⟨round1 (s * (1 / 4) + l * (1 / 2) + e * (1 / 4)), s, l, e⟩) ∧
    (∀ pd : List Frame, 3 ≤ pd.length →
      (analyzeSwimmingPhases pd).overall =
        round1 (analyzeSetupPhase (pd.take (detectMovementPhases pd).1) * (1 / 4) +
          analyzeLaunchPhase ((pd.take (detectMovementPhases pd).2).drop
            (detectMovementPhases pd).1) * (1 / 2) +
          analyzeEntryPhase (pd.drop (detectMovementPhases pd).2) * (1 / 4))) := by
  refine ⟨?_, ?_, ?_⟩
  · intro a l e
    simp [aggregateStartScores, jsOrQ]
  · intro s l e a b c hs hl he
    simp [aggregateStartScores, jsOrQ, hs, hl, he]
  · intro pd hpd
    simp only [analyzeSwimmingPhases, if_neg (by omega : ¬(pd.length < 3))]

/-- C4 witness: the aggregation applied with no upstream phase analysis,
with a non-zero upstream phase analysis, and on the concrete buffer. -/
theorem C4_aggregator_witness :
    aggregateStartScores none 1 2 3 =
      ⟨round1 (1 * (1 / 4) + 2 * (1 / 2) + 3 * (1 / 4)), 1, 2, 3⟩ ∧
    aggregateStartScores (some (6, 7, 8)) 1 2 3 =
      ⟨round1 (6 * (1 / 4) + 7 * (1 / 2) + 8 * (1 / 4)), 6, 7, 8⟩ ∧
    (analyzeSwimmingPhases c4Frames).overall =
      round1 (analyzeSetupPhase (c4Frames.take (detectMovementPhases c4Frames).1) * (1 / 4) +
        analyzeLaunchPhase ((c4Frames.take (detectMovementPhases c4Frames).2).drop
          (detectMovementPhases c4Frames).1) * (1 / 2) +
        analyzeEntryPhase (c4Frames.drop (detectMovementPhases c4Frames).2) * (1 / 4)) :=
  ⟨C4_aggregator.1 1 2 3,
   C4_aggregator.2.1 6 7 8 1 2 3 (by norm_num) (by norm_num) (by norm_num),
   C4_aggregator.2.2 c4Frames (by with_unfolding_all decide)⟩

/-- C6 counterexample: a single streamlined-posture entry frame scores 8.0,
not the 7.5 that a +1.5 streamlined credit over the 6.0 base would give:
the code's streamlined credit is +2.0. -/
theorem C6_entry_streamlined_counterexample :
    analyzeEntryPhase [c6Frame] = 8 ∧ (8 : ℚ) ≠ 6 + 3 / 2 := by
  constructor
  · with_unfolding_all decide
  · norm_num

/-- C6 as amended: the setup score is base 6.0 plus 1.5 for an upright
posture, 1.0 for more than 3 frames and 0.5 for full-body visibility,
capped at 10; the entry score is base 6.0 plus 2.0 for a streamlined
posture (else 1.0 for a transitioning posture), 1.0 for full-body
visibility and 0.5 for average movement in the controlled band, capped
at 10. -/
theorem C6_phase_credits (frames : List Frame) :
    analyzeSetupPhase frames =
      (if frames.isEmpty then 6 else
        min (6 + (if frames.any (fun f => f.posture == "upright") then (3 : ℚ) / 2 else 0) +
          (if frames.length > 3 then 1 else 0) +
          (if frames.any (fun f => f.hasFullBody) then 1 / 2 else 0)) 10) ∧
    analyzeEntryPhase frames =
      (if frames.isEmpty then 6 else
        min (6 + (if frames.any (fun f => f.posture == "streamlined") then (2 : ℚ)
            else if frames.any (fun f => f.posture == "transitioning") then 1 else 0) +
          (if frames.any (fun f => f.hasFullBody) then 1 else 0) +
          (if ((frames.map (fun f => f.movement)).sum /
                ((frames.map (fun f => f.movement)).length : ℚ) > 3 / 1000 ∧
              (frames.map (fun f => f.movement)).sum /
                ((frames.map (fun f => f.movement)).length : ℚ) < 3 / 200) then 1 / 2
            else 0)) 10) := by
  constructor
  · simp only [analyzeSetupPhase]
    split_ifs <;> norm_num
  · simp only [analyzeEntryPhase, Bool.and_eq_true, decide_eq_true_eq]
    split_ifs <;> norm_num

/-- C10: every heuristic phase scorer (the three route scorers and the
local setup scorer) returns a score in [6, 10], and an empty phase slice
scores exactly 6. -/
theorem C10_heuristic_bounds :
    (∀ frames : List Frame,
      (6 ≤ analyzeSetupPhase frames ∧ analyzeSetupPhase frames ≤ 10) ∧
      (6 ≤ analyzeLaunchPhase frames ∧ analyzeLaunchPhase frames ≤ 10) ∧
      (6 ≤ analyzeEntryPhase frames ∧ analyzeEntryPhase frames ≤ 10) ∧
      (6 ≤ analyzeLocalSetup frames ∧ analyzeLocalSetup frames ≤ 10)) ∧
    analyzeSetupPhase [] = 6 ∧ analyzeLaunchPhase [] = 6 ∧
      analyzeEntryPhase [] = 6 ∧ analyzeLocalSetup [] = 6 := by
  constructor
  · intro frames
    refine ⟨⟨?_, ?_⟩, ⟨?_, ?_⟩, ⟨?_, ?_⟩, ⟨?_, ?_⟩⟩ <;>
      first
      | (simp only [analyzeSetupPhase]
         split_ifs <;> norm_num [le_min_iff, min_le_iff])
      | (simp only [analyzeLaunchPhase]
         split_ifs <;> norm_num [le_min_iff, min_le_iff])
      | (simp only [analyzeEntryPhase]
         split_ifs <;> norm_num [le_min_iff, min_le_iff])
      | (simp only [analyzeLocalSetup]
         split_ifs <;> norm_num [le_min_iff, min_le_iff])
  · exact ⟨rfl, rfl, rfl, rfl⟩

lemma velocities_zero (seq : List Pose) (h : AllStill seq) :
    ∀ v ∈ horizontalVelocities seq, v = 0 := by
  intro v hv
  simp only [horizontalVelocities, List.mem_filterMap] at hv
  obtain ⟨pr, hpr, hpv⟩ := hv
  simp only [pairVelocity] at hpv
  by_cases hc : (pdKeyJoints.filterMap (fun j =>
      match pr.1 j, pr.2 j with
      | some a, some b => some |b.x - a.x|
      | _, _ => none)).length = 0
  · rw [if_pos hc] at hpv
    cases hpv
  · rw [if_neg hc] at hpv
    have hzero : ∀ x ∈ pdKeyJoints.filterMap (fun j =>
        match pr.1 j, pr.2 j with
        | some a, some b => some |b.x - a.x|
        | _, _ => none), x = 0 := by
      intro x hx
      simp only [List.mem_filterMap] at hx
      obtain ⟨j, -, hj⟩ := hx
      rcases h1 : pr.1 j with - | a
      · rw [h1] at hj
        cases hj
      rcases h2 : pr.2 j with - | b
      · rw [h1, h2] at hj
        cases hj
      · rw [h1, h2] at hj
        have hab := h pr hpr j a b h1 h2
        have hx2 := Option.some_inj.mp hj
        rw [← hx2, hab, sub_self, abs_zero]
    have hsum : (pdKeyJoints.filterMap (fun j =>
        match pr.1 j, pr.2 j with
        | some a, some b => some |b.x - a.x|
        | _, _ => none)).sum = 0 := List.sum_eq_zero hzero
    have hveq := Option.some_inj.mp hpv
    rw [← hveq, hsum, zero_div]

lemma allStill_replicate (p : Pose) (n : ℕ) : AllStill (List.replicate n p) := by
  rintro ⟨q, r⟩ hpr j a b h1 h2
  have hq := List.eq_of_mem_replicate (List.of_mem_zip hpr).1
  have hr : r ∈ (List.replicate n p).tail := (List.of_mem_zip hpr).2
  have hr2 : r = p := by
    rcases n with - | n2
    · simp at hr
    · rw [List.replicate_succ] at hr
      exact List.eq_of_mem_replicate hr
  subst hq
  subst hr2
  simp only at h1 h2
  rw [h1] at h2
  exact Option.some_inj.mp h2

/-- C7 as amended: for every sequence in which all consecutive-frame
displacements of every tracked joint are zero, the classifier returns
`isStart = false`; the confidence is 0 in the short-sequence and
no-velocity-data branches, but 0.5 — not 0 — once the sequence has at
least 5 frames and at least 2 valid velocity samples. -/
theorem C7_still_classifier (seq : List Pose) (hstill : AllStill seq) :
    (isStartMotion seq).isStart = false ∧
    (seq.length < 5 → (isStartMotion seq).confidence = 0) ∧
    ((horizontalVelocities seq).length < 2 → (isStartMotion seq).confidence = 0) ∧
    (5 ≤ seq.length → 2 ≤ (horizontalVelocities seq).length →
      (isStartMotion seq).confidence = 1 / 2) := by
  by_cases h5 : seq.length < 5
  · have heq : isStartMotion seq = ⟨false, 0, some "Sequence too short"⟩ := by
      simp only [isStartMotion, if_pos h5]
    rw [heq]
    exact ⟨rfl, fun _ => rfl, fun _ => rfl, fun hc _ => absurd hc (by omega)⟩
  · by_cases h2 : (horizontalVelocities seq).length < 2
    · have heq : isStartMotion seq = ⟨false, 0, some "Not enough velocity data"⟩ := by
        simp only [isStartMotion, if_neg h5, if_pos h2]
      rw [heq]
      exact ⟨rfl, fun _ => rfl, fun _ => rfl, fun _ hc => absurd hc (by omega)⟩
    · have hne : horizontalVelocities seq ≠ [] := by
        intro hcon
        rw [hcon] at h2
        simp at h2
      have hmax0 : jsMax (horizontalVelocities seq) = 0 :=
        jsMax_eq_zero _ hne (velocities_zero seq hstill)
      have hjump : decide (jsMax (horizontalVelocities seq) > 3 / 1000) = false := by
        rw [hmax0]
        norm_num
      have heq : isStartMotion seq = ⟨false, 1 / 2, none⟩ := by
        simp [isStartMotion, if_neg h5, if_neg h2, hjump]
      rw [heq]
      exact ⟨rfl, fun hc => absurd hc h5, fun hc => absurd hc h2, fun _ _ => rfl⟩

/-- C7 witness: the amended classifier behavior on six identical static
poses sharing one tracked shoulder joint. -/
theorem C7_still_classifier_witness :
    (isStartMotion c7wSeq).isStart = false ∧
    (c7wSeq.length < 5 → (isStartMotion c7wSeq).confidence = 0) ∧
    ((horizontalVelocities c7wSeq).length < 2 → (isStartMotion c7wSeq).confidence = 0) ∧
    (5 ≤ c7wSeq.length → 2 ≤ (horizontalVelocities c7wSeq).length →
      (isStartMotion c7wSeq).confidence = 1 / 2) :=
  C7_still_classifier c7wSeq (allStill_replicate c7wPose 6)

/-- C7 counterexample: five identical static poses have all consecutive
displacements zero, yet the classifier returns confidence 0.5, not the
claimed 0. -/
theorem C7_still_confidence_counterexample :
    AllStill c7Seq ∧ isStartMotion c7Seq = ⟨false, 1 / 2, none⟩ ∧ ((1 : ℚ) / 2 ≠ 0) := by
  refine ⟨allStill_replicate c7Pose 5, ?_, by norm_num⟩
  with_unfolding_all decide

/-- C8: for a reference range with `rmin < optimal < rmax`, the angle score
inside the acceptable range equals `100 - |actual - optimal| / maxDeviation * 100`
with `maxDeviation = max (optimal - rmin) (rmax - optimal)`; outside the
range it equals `max 0 (50 - 2 * distance-from-range)`; and an angle equal
to the optimal value scores exactly 100. -/
theorem C8_score_angle (actual optimal rmin rmax : ℚ) (h1 : rmin < optimal)
    (h2 : optimal < rmax) :
    (rmin ≤ actual → actual ≤ rmax →
      scoreAngle actual optimal rmin rmax =
        100 - |actual - optimal| / max (optimal - rmin) (rmax - optimal) * 100) ∧
    (actual < rmin ∨ rmax < actual →
      scoreAngle actual optimal rmin rmax =
        max 0 (50 - min |actual - rmin| |actual - rmax| * 2)) ∧
    scoreAngle optimal optimal rmin rmax = 100 := by
  refine ⟨?_, ?_, ?_⟩
  · intro ha1 ha2
    rw [scoreAngle, if_pos ⟨ha1, ha2⟩]
    apply max_eq_right
    have hmd : 0 < max (optimal - rmin) (rmax - optimal) :=
      lt_max_iff.mpr (Or.inl (by linarith))
    have hdev : |actual - optimal| ≤ max (optimal - rmin) (rmax - optimal) := by
      rcases le_or_lt actual optimal with hle | hlt
      · have : |actual - optimal| = optimal - actual := by
          rw [abs_sub_comm]
          exact abs_of_nonneg (by linarith)
        rw [this]
        exact le_trans (by linarith) (le_max_left _ _)
      · have : |actual - optimal| = actual - optimal := abs_of_nonneg (by linarith)
        rw [this]
        exact le_trans (by linarith) (le_max_right _ _)
    have hq : |actual - optimal| / max (optimal - rmin) (rmax - optimal) ≤ 1 :=
      (div_le_one hmd).mpr hdev
    nlinarith
  · intro hout
    rw [scoreAngle, if_neg ?_]
    rintro ⟨hc1, hc2⟩
    rcases hout with hlt | hlt <;> linarith
  · rw [scoreAngle, if_pos ⟨le_of_lt h1, le_of_lt h2⟩, sub_self, abs_zero, zero_div,
      zero_mul, sub_zero]
    norm_num

/-- C8 witness: the three cases at a concrete reference profile
(optimal 90, range [80, 110]). -/
theorem C8_score_angle_witness :
    (scoreAngle 85 90 80 110 = 100 - |(85 : ℚ) - 90| / max ((90 : ℚ) - 80) (110 - 90) * 100) ∧
    (scoreAngle 120 90 80 110 = max 0 (50 - min |(120 : ℚ) - 80| |(120 : ℚ) - 110| * 2)) ∧
    scoreAngle 90 90 80 110 = 100 :=
  ⟨(C8_score_angle 85 90 80 110 (by norm_num) (by norm_num)).1 (by norm_num) (by norm_num),
   (C8_score_angle 120 90 80 110 (by norm_num) (by norm_num)).2.1 (Or.inr (by norm_num)),
   (C8_score_angle 90 90 80 110 (by norm_num) (by norm_num)).2.2⟩

/-- C9: sequences below the 5-frame minimum, or with fewer than 2 valid
velocity samples, yield a normal negative result with confidence 0 and a
diagnostic string (the classifier is a total function, so no exception is
possible); and the phase analyzer returns the default-scored result on
buffers with fewer than 3 frames. -/
theorem C9_insufficient_data :
    (∀ seq : List Pose, seq.length < 5 →
      isStartMotion seq = ⟨false, 0, some "Sequence too short"⟩) ∧
    (∀ seq : List Pose, 5 ≤ seq.length → (horizontalVelocities seq).length < 2 →
      isStartMotion seq = ⟨false, 0, some "Not enough velocity data"⟩) ∧
    (∀ pd : List Frame, pd.length < 3 →
      analyzeSwimmingPhases pd = getDefaultPhaseAnalysis) := by
  refine ⟨?_, ?_, ?_⟩
  · intro seq h
    simp only [isStartMotion, if_pos h]
  · intro seq h5 h2
    simp only [isStartMotion, if_neg (by omega : ¬(seq.length < 5)), if_pos h2]
  · intro pd h
    simp only [analyzeSwimmingPhases, if_pos h]

/-- C9 witness: the empty pose sequence, five jointless poses (no valid
velocity samples), and the empty frame buffer. -/
theorem C9_insufficient_data_witness :
    isStartMotion [] = ⟨false, 0, some "Sequence too short"⟩ ∧
    isStartMotion c9Seq = ⟨false, 0, some "Not enough velocity data"⟩ ∧
    analyzeSwimmingPhases [] = getDefaultPhaseAnalysis :=
  ⟨C9_insufficient_data.1 [] (by decide),
   C9_insufficient_data.2.1 c9Seq (by with_unfolding_all decide)
     (by with_unfolding_all decide),
   C9_insufficient_data.2.2 [] (by decide)⟩

lemma angleVia_eq_zero (pose : PoseR) (l1 l2 l3 r1 r2 r3 : String)
    (h : hasTriplet pose l1 l2 l3 r1 r2 r3 = false) :
    angleVia pose l1 l2 l3 r1 r2 r3 = 0 := by
  unfold angleVia
  rcases hl1 : getKeypointByName pose l1 with - | a1 <;>
    rcases hl2 : getKeypointByName pose l2 with - | a2 <;>
      rcases hl3 : getKeypointByName pose l3 with - | a3 <;>
        rcases hr1 : getKeypointByName pose r1 with - | b1 <;>
          rcases hr2 : getKeypointByName pose r2 with - | b2 <;>
            rcases hr3 : getKeypointByName pose r3 with - | b3 <;>
              simp_all [hasTriplet]

lemma hip_zero_of_missing (f : PoseR) (hf : hasHipTriplet f = false) :
    (calculateBodyAngles f).hip = 0 :=
  angleVia_eq_zero f "leftShoulder" "leftHip" "leftKnee" "rightShoulder" "rightHip"
    "rightKnee" hf

lemma knee_zero_of_missing (f : PoseR) (hf : hasKneeTriplet f = false) :
    (calculateBodyAngles f).knee = 0 :=
  angleVia_eq_zero f "leftHip" "leftKnee" "leftAnkle" "rightHip" "rightKnee"
    "rightAnkle" hf

lemma shoulder_zero_of_missing (f : PoseR) (hf : hasShoulderTriplet f = false) :
    (calculateBodyAngles f).shoulder = 0 :=
  angleVia_eq_zero f "leftElbow" "leftShoulder" "leftHip" "rightElbow" "rightShoulder"
    "rightHip" hf

lemma elbow_zero_of_missing (f : PoseR) (hf : hasElbowTriplet f = false) :
    (calculateBodyAngles f).elbow = 0 :=
  angleVia_eq_zero f "leftShoulder" "leftElbow" "leftWrist" "rightShoulder" "rightElbow"
    "rightWrist" hf

/-- C5 as amended: the per-phase average of each joint angle divides by the
total number of frames in the phase; frames missing both joint triplets of
an angle contribute 0 to the numerator but still count in the denominator
(so the numerator equals the sum over triplet-present frames only). -/
theorem C5_average_denominator (frames : List PoseR) :
    (phaseAverageAngles frames).hip =
      ((frames.filter hasHipTriplet).map (fun f => (calculateBodyAngles f).hip)).sum /
        (frames.length : ℝ) ∧
    (phaseAverageAngles frames).knee =
      ((frames.filter hasKneeTriplet).map (fun f => (calculateBodyAngles f).knee)).sum /
        (frames.length : ℝ) ∧
    (phaseAverageAngles frames).shoulder =
      ((frames.filter hasShoulderTriplet).map
        (fun f => (calculateBodyAngles f).shoulder)).sum / (frames.length : ℝ) ∧
    (phaseAverageAngles frames).elbow =
      ((frames.filter hasElbowTriplet).map (fun f => (calculateBodyAngles f).elbow)).sum /
        (frames.length : ℝ) := by
  by_cases h0 : frames.length = 0
  · have hnil : frames = [] := List.length_eq_zero.mp h0
    subst hnil
    simp [phaseAverageAngles]
  · simp only [phaseAverageAngles, if_neg h0]
    refine ⟨?_, ?_, ?_, ?_⟩
    · rw [sum_map_eq_sum_filter _ hasHipTriplet hip_zero_of_missing frames]
    · rw [sum_map_eq_sum_filter _ hasKneeTriplet knee_zero_of_missing frames]
    · rw [sum_map_eq_sum_filter _ hasShoulderTriplet shoulder_zero_of_missing frames]
    · rw [sum_map_eq_sum_filter _ hasElbowTriplet elbow_zero_of_missing frames]

lemma arg_one_re_im : Complex.arg ⟨1, 0⟩ = 0 := by
  have : (⟨1, 0⟩ : ℂ) = 1 := by
    apply Complex.ext <;> simp
  rw [this, Complex.arg_one]

lemma arg_neg_i_re_im : Complex.arg ⟨0, -1⟩ = -(Real.pi / 2) := by
  have : (⟨0, -1⟩ : ℂ) = -Complex.I := by
    apply Complex.ext <;> simp
  rw [this, Complex.arg_neg_I]

lemma c5_right_angle : calculateAngle ⟨0, 0⟩ ⟨0, 1⟩ ⟨1, 1⟩ = 90 := by
  unfold calculateAngle atan2
  simp only
  norm_num
  rw [arg_one_re_im, arg_neg_i_re_im]
  have hrad : (0 - -(Real.pi / 2)) * 180 / Real.pi = 90 := by
    field_simp
    ring
  rw [hrad, abs_of_nonneg (by norm_num : (0 : ℝ) ≤ 90), if_neg (by norm_num)]

lemma c5PoseA_hip : (calculateBodyAngles c5PoseA).hip = 90 := by
  have h1 : getKeypointByName c5PoseA "leftShoulder" = some ⟨0, 0⟩ := rfl
  have h2 : getKeypointByName c5PoseA "leftHip" = some ⟨0, 1⟩ := rfl
  have h3 : getKeypointByName c5PoseA "leftKnee" = some ⟨1, 1⟩ := rfl
  show angleVia c5PoseA "leftShoulder" "leftHip" "leftKnee" "rightShoulder" "rightHip"
    "rightKnee" = 90
  unfold angleVia
  rw [h1, h2, h3]
  exact c5_right_angle

/-- C5 counterexample: a phase of two frames, one with a left hip triplet
forming a 90-degree hip angle and one with no keypoints at all.  The code
averages 90 and a contributed 0 over both frames, giving 45, while the
claimed missing-frame exclusion gives 90. -/
theorem C5_zero_contribution_counterexample :
    hasHipTriplet c5PoseB = false ∧
    (phaseAverageAngles [c5PoseA, c5PoseB]).hip = 45 ∧
    specAverageHip [c5PoseA, c5PoseB] = 90 ∧
    (phaseAverageAngles [c5PoseA, c5PoseB]).hip ≠ specAverageHip [c5PoseA, c5PoseB] := by
  have hA := c5PoseA_hip
  have hB : (calculateBodyAngles c5PoseB).hip = 0 := hip_zero_of_missing c5PoseB rfl
  have hAt : hasHipTriplet c5PoseA = true := rfl
  have hBt : hasHipTriplet c5PoseB = false := rfl
  refine ⟨rfl, ?_, ?_, ?_⟩
  · simp only [phaseAverageAngles, List.map_cons, List.map_nil, List.sum_cons,
      List.sum_nil, hA, hB]
    norm_num
  · simp only [specAverageHip, List.filter_cons, hAt, hBt, List.filter_nil,
      List.map_cons, List.map_nil, List.sum_cons, List.sum_nil, hA]
    norm_num
    exact hA
  · have e1 : (phaseAverageAngles [c5PoseA, c5PoseB]).hip = 45 := by
      simp only [phaseAverageAngles, List.map_cons, List.map_nil, List.sum_cons,
        List.sum_nil, hA, hB]
      norm_num
    have e2 : specAverageHip [c5PoseA, c5PoseB] = 90 := by
      simp only [specAverageHip, List.filter_cons, hAt, hBt, List.filter_nil,
        List.map_cons, List.map_nil, List.sum_cons, List.sum_nil, hA]
      norm_num
      exact hA
    rw [e1, e2]
    norm_num

end SwimStart
